import Mathlib

/-!
Verification development for the simple-service-doc-converter repository.

The definitions below are shallow embeddings of the TypeScript sources:

- `withTimeout`        embeds src/src/common/withTimeout.ts
- `convertFile`        embeds src/src/lib/convert.ts (post-spawn outcome logic)
- the limiter model    embeds the admission limiter used at src/src/lib/convert.ts
- the filename helpers embed src/src/common/filename.ts
- `handleJson` and `handleMultipart` embed the two branches of the
  fetch handler in src/src/server.ts, together with the `withTemp`
  scope helper and the `FileTemp.cleanFileOnTmpFolder` cleanup.

Asynchronous effects are embedded by explicit oracles: a Bool or a value
recording what the runtime observed at each suspension point, e.g. whether
the deadline timer fired before the wrapped operation settled, whether the
staging fetch succeeded, what the converter subprocess wrote, whether the
expected output file exists.  Exceptions become `Except` values or explicit
error branches; filesystem state becomes explicit record fields.
-/

/-! ## Deadline and cancellation scope: src/src/common/withTimeout.ts

The JS function creates an internal `AbortController`, aborts it when the
parent signal is or becomes aborted, and, when `ms` is a number greater
than zero, starts a timer that sets a `timedOut` flag and aborts the
controller when it expires.  The operation `fn` is run with the internal
signal; if it throws and `timedOut` is set the call throws a fresh
`Operation timed out` error, otherwise the original error is rethrown.

The embedding replaces wall-clock time with the oracle `timerFires`: did
the deadline timer expire before `fn` settled?  `fn` is a function of the
internal token state (was it aborted), and its settlement is a value of
`Except eps alpha`.  The fresh timeout Error object is the distinguished
constructor `WTResult.timeoutError`, distinct from every error the
operation itself can raise (in JS this distinction is object identity).
-/

inductive WTResult (eps : Type) (alpha : Type) where
  | ok (a : alpha)
  | opError (e : eps)
  | timeoutError
deriving DecidableEq

/-- The `timedOut` flag of withTimeout.ts: set only when a timer was armed
(`typeof ms === number and ms > 0`) and it expired before `fn` settled. -/
def timedOutFlag (ms : Option Nat) (timerFires : Bool) : Bool :=
  match ms with
  | some m => (decide (0 < m)) && timerFires
  | none => false

/-- The internal AbortController signal ends up aborted when the parent
signal aborted (before or during the call) or the deadline timer fired. -/
def internalAborted (ms : Option Nat) (parentAborted timerFires : Bool) : Bool :=
  parentAborted || timedOutFlag ms timerFires

/-- Shallow embedding of `withTimeout` (src/src/common/withTimeout.ts). -/
def withTimeout {eps alpha : Type} (ms : Option Nat) (parentAborted timerFires : Bool)
    (fn : Bool → Except eps alpha) : WTResult eps alpha :=
  match fn (internalAborted ms parentAborted timerFires) with
  | .ok a => .ok a
  | .error e => if timedOutFlag ms timerFires then .timeoutError else .opError e

/-- Claim C4: for every operation wrapped by withTimeout with a duration,
if the deadline timer fires and the operation subsequently raises any
error, the call fails with a Timeout error regardless of what the
operation itself raised; if the internal token was cancelled by parent
propagation instead (no timeout), the original error surfaces unchanged. -/
theorem withTimeout_timeout_vs_parent {eps alpha : Type} (ms : Option Nat)
    (parentAborted timerFires : Bool) (fn : Bool → Except eps alpha) (e : eps) :
    (timedOutFlag ms timerFires = true →
      fn (internalAborted ms parentAborted timerFires) = .error e →
      withTimeout ms parentAborted timerFires fn = .timeoutError)
    ∧ (parentAborted = true → timedOutFlag ms timerFires = false →
      fn (internalAborted ms parentAborted timerFires) = .error e →
      withTimeout ms parentAborted timerFires fn = .opError e) := by
  constructor
  · intro ht hfn
    simp [withTimeout, hfn, ht]
  · intro _ ht hfn
    simp [withTimeout, hfn, ht]

/-- Witness for C4: a timer that fired turns the operation error `boom`
into a Timeout failure; a parent-cancelled run surfaces `boom` unchanged. -/
theorem withTimeout_timeout_vs_parent_witness :
    withTimeout (some 5) false true (fun _ => (.error "boom" : Except String Nat))
      = .timeoutError
    ∧ withTimeout none true false (fun _ => (.error "boom" : Except String Nat))
      = .opError "boom" := by
  constructor
  · exact (withTimeout_timeout_vs_parent (some 5) false true
      (fun _ => .error "boom") "boom").1 (by decide) rfl
  · exact (withTimeout_timeout_vs_parent none true false
      (fun _ => .error "boom") "boom").2 rfl (by decide) rfl

/-- Claim C10: withTimeout returns the result of an operation that
completes successfully, even when the deadline timer already fired, and a
Timeout error is reported only when the operation itself raised after the
timer fired. -/
theorem withTimeout_success_passthrough {eps alpha : Type} (ms : Option Nat)
    (parentAborted timerFires : Bool) (fn : Bool → Except eps alpha) :
    (∀ a, fn (internalAborted ms parentAborted timerFires) = .ok a →
      withTimeout ms parentAborted timerFires fn = .ok a)
    ∧ (withTimeout ms parentAborted timerFires fn = .timeoutError →
      timedOutFlag ms timerFires = true
      ∧ ∃ e, fn (internalAborted ms parentAborted timerFires) = .error e) := by
  constructor
  · intro a hfn
    simp [withTimeout, hfn]
  · intro hres
    unfold withTimeout at hres
    cases hfn : fn (internalAborted ms parentAborted timerFires) with
    | ok a => simp [hfn] at hres
    | error e =>
      rw [hfn] at hres
      by_cases ht : timedOutFlag ms timerFires = true
      · exact ⟨ht, e, rfl⟩
      · simp [ht] at hres

/-- Witness for C10: an operation that returns 3 after the timer fired
still yields 3 (not a Timeout error). -/
theorem withTimeout_success_passthrough_witness :
    withTimeout (some 5) false true (fun _ => (.ok 3 : Except String Nat))
      = .ok 3 :=
  (withTimeout_success_passthrough (some 5) false true (fun _ => .ok 3)).1 3 rfl

/-! ## Conversion invoker: src/src/lib/convert.ts

`convertFile` runs inside a limiter slot (modelled separately below).  It
spawns `soffice`, captures stdout and stderr incrementally, records the
exit code and terminating signal, and runs the wait under `withTimeout`
with the caller timeout and parent signal.  After the process exits it
checks for the expected output file `<temp.filePath>.<toExt>`:

- file present and `options.keepTemp` set → return the output path;
- file present and not kept → read it into memory and return the bytes,
  or, when the read fails, throw a `Failed to read converted file` error
  enriched with the captured stdout, stderr, exit code and signal;
- file absent → throw a `No output file produced` error enriched with the
  same diagnostics.

Oracles: `proc` is the settlement of the spawn-and-wait step as a function
of the internal abort token (a child `error` event becomes a String
error); `outputExists` is the `access(outputPath)` check; `readResult` is
the `readFile(outputPath)` result (`none` = the read threw).  The temp
directory cleanup in the `finally` block of convert.ts is part of the
pipeline model further below.
-/

/-- Observations of the exited converter subprocess: captured stdout and
stderr, exit code, and terminating signal (from the `close` event). -/
structure ProcObs where
  stdout : String
  stderr : String
  exitCode : Option Int
  exitSignal : Option String
deriving DecidableEq

inductive ConvertResult where
  | outputPath (p : String)
  | convertedFile (bytes : List UInt8)
deriving DecidableEq

inductive ConvertError where
  | timedOut
  | procError (msg : String)
  | noOutput (stdout stderr : String) (code : Option Int) (sig : Option String)
  | readFailed (stdout stderr : String) (code : Option Int) (sig : Option String)
deriving DecidableEq

/-- Shallow embedding of `convertFile` (src/src/lib/convert.ts), from the
spawn onwards: the withTimeout wrapper around the process wait, then the
output-artifact check. -/
def convertFile (tempFilePath toExt : String) (keepTemp : Bool)
    (ms : Option Nat) (parentAborted timerFires : Bool)
    (proc : Bool → Except String ProcObs)
    (outputExists : Bool) (readResult : Option (List UInt8)) :
    Except ConvertError ConvertResult :=
  let outputPath := tempFilePath ++ "." ++ toExt
  match withTimeout ms parentAborted timerFires proc with
  | .timeoutError => .error .timedOut
  | .opError m => .error (.procError m)
  | .ok obs =>
    if outputExists then
      if keepTemp then .ok (.outputPath outputPath)
      else
        match readResult with
        | some bs => .ok (.convertedFile bs)
        | none => .error (.readFailed obs.stdout obs.stderr obs.exitCode obs.exitSignal)
    else .error (.noOutput obs.stdout obs.stderr obs.exitCode obs.exitSignal)

/-- Counterexample for C2: the converter exited cleanly (exit code 0,
only a warning on stderr) and the expected output file exists, yet with
`keepTemp` unset and a failing `readFile` the call does not return a
success outcome: it fails with `Failed to read converted file`.  The
claim asserts a success outcome whenever the process exits and the output
file exists, omitting the readability condition of convert.ts. -/
theorem convertFile_unreadable_output_cex :
    convertFile "/tmp/doc-conv-x/file" "pdf" false none false false
      (fun _ => .ok ⟨"", "javaldx warning", some 0, none⟩) true none
      = .error (.readFailed "" "javaldx warning" (some 0) none) := rfl

/-- Claim C2 (amended): when the converter process exits and the expected
output file exists, the call returns a success outcome — the output path
when `keepTemp` is set, the file bytes otherwise provided the file can be
read — regardless of the captured stderr text and of the exit code. -/
theorem convertFile_success_ignores_stderr (tempFilePath toExt : String)
    (keepTemp : Bool) (ms : Option Nat) (parentAborted timerFires : Bool)
    (proc : Bool → Except String ProcObs) (obs : ProcObs)
    (readResult : Option (List UInt8))
    (hproc : proc (internalAborted ms parentAborted timerFires) = .ok obs) :
    (keepTemp = true →
      convertFile tempFilePath toExt keepTemp ms parentAborted timerFires proc true readResult
        = .ok (.outputPath (tempFilePath ++ "." ++ toExt)))
    ∧ (keepTemp = false → ∀ bs, readResult = some bs →
      convertFile tempFilePath toExt keepTemp ms parentAborted timerFires proc true readResult
        = .ok (.convertedFile bs)) := by
  constructor
  · intro hk
    simp [convertFile, withTimeout, hproc, hk]
  · intro hk bs hr
    simp [convertFile, withTimeout, hproc, hk, hr]

/-- Witness for the amended C2: a process that exits 1 with non-empty
stderr but produces the output file still yields a success outcome, in
both the keepTemp and the in-memory form. -/
theorem convertFile_success_ignores_stderr_witness :
    convertFile "/tmp/doc-conv-x/file" "pdf" true none false false
      (fun _ => .ok ⟨"out", "warning text", some 1, none⟩) true (some [7])
      = .ok (.outputPath "/tmp/doc-conv-x/file.pdf")
    ∧ convertFile "/tmp/doc-conv-x/file" "pdf" false none false false
      (fun _ => .ok ⟨"out", "warning text", some 1, none⟩) true (some [7])
      = .ok (.convertedFile [7]) := by
  constructor
  · exact (convertFile_success_ignores_stderr "/tmp/doc-conv-x/file" "pdf" true none false false
      (fun _ => .ok ⟨"out", "warning text", some 1, none⟩) ⟨"out", "warning text", some 1, none⟩
      (some [7]) rfl).1 rfl
  · exact (convertFile_success_ignores_stderr "/tmp/doc-conv-x/file" "pdf" false none false false
      (fun _ => .ok ⟨"out", "warning text", some 1, none⟩) ⟨"out", "warning text", some 1, none⟩
      (some [7]) rfl).2 rfl [7] rfl

/-- Claim C3: when the converter process exits but the expected output
file is absent, the call fails with an outcome carrying the captured
stdout, the captured stderr verbatim, the exit code and the terminating
signal. -/
theorem convertFile_noOutput_diagnostics (tempFilePath toExt : String)
    (keepTemp : Bool) (ms : Option Nat) (parentAborted timerFires : Bool)
    (proc : Bool → Except String ProcObs) (obs : ProcObs)
    (readResult : Option (List UInt8))
    (hproc : proc (internalAborted ms parentAborted timerFires) = .ok obs) :
    convertFile tempFilePath toExt keepTemp ms parentAborted timerFires proc false readResult
      = .error (.noOutput obs.stdout obs.stderr obs.exitCode obs.exitSignal) := by
  simp [convertFile, withTimeout, hproc]

/-- Witness for C3: a process killed by SIGTERM that produced no output
file yields the failure diagnostics verbatim. -/
theorem convertFile_noOutput_diagnostics_witness :
    convertFile "/tmp/doc-conv-x/file" "pdf" true (some 9) false true
      (fun _ => .ok ⟨"so", "se", some 81, some "SIGTERM"⟩) false none
      = .error (.noOutput "so" "se" (some 81) (some "SIGTERM")) :=
  convertFile_noOutput_diagnostics "/tmp/doc-conv-x/file" "pdf" true (some 9) false true
    (fun _ => .ok ⟨"so", "se", some 81, some "SIGTERM"⟩) ⟨"so", "se", some 81, some "SIGTERM"⟩
    none rfl

/-! ## Admission limiter: src/src/lib/convert.ts line 7

`const limit = pLimit(parseInt(process.env.CONCURRENCY_LIMIT || '5', 10))`
and every `convertFile` body runs as `limit(async () => ...)`.  The
limiter itself is the npm `p-limit` package, whose source is not part of
this repository, so it is modelled from the specification below.
-/

/-- The default admission capacity: `parseInt('5', 10)` when the
CONCURRENCY_LIMIT environment variable is unset (convert.ts line 7). -/
def CONCURRENCY_LIMIT_default : Nat := 5

/-- Modelled from the spec: the Admission Limiter (the p-limit package
used at src/src/lib/convert.ts line 7, not part of this repository).  At
most N tasks execute concurrently; additional callers wait in arrival
order (FIFO) for a slot; a finishing task immediately hands its slot to
the head of the queue.  Tasks are identified by their submission index. -/
structure LimiterState where
  active : Nat
  queue : List Nat
  started : List Nat
  nextId : Nat
deriving DecidableEq

def limiterInit : LimiterState := ⟨0, [], [], 0⟩

inductive LimiterEvent where
  | submit
  | finish
deriving DecidableEq

/-- Modelled from the spec: one limiter transition.  A submission starts
immediately when a slot is free, else it is enqueued; a completion frees
the slot and immediately starts the queue head when one is waiting. -/
def limiterStep (n : Nat) (s : LimiterState) : LimiterEvent → LimiterState
  | .submit =>
    if s.active < n then
      { active := s.active + 1, queue := s.queue,
        started := s.started ++ [s.nextId], nextId := s.nextId + 1 }
    else
      { active := s.active, queue := s.queue ++ [s.nextId],
        started := s.started, nextId := s.nextId + 1 }
  | .finish =>
    if s.active = 0 then s
    else
      match s.queue with
      | [] => { active := s.active - 1, queue := [],
                started := s.started, nextId := s.nextId }
      | q :: rest => { active := s.active, queue := rest,
                       started := s.started ++ [q], nextId := s.nextId }

def limiterRun (n : Nat) (evs : List LimiterEvent) : LimiterState :=
  evs.foldl (limiterStep n) limiterInit

/-- The limiter invariant: the live count never exceeds the capacity, a
non-empty wait queue means every slot is taken, the identifiers in
start order followed by the queue are strictly increasing, and all of
them precede the next submission identifier. -/
def LimiterInv (n : Nat) (s : LimiterState) : Prop :=
  s.active ≤ n
  ∧ (s.queue = [] ∨ s.active = n)
  ∧ List.Sorted (· < ·) (s.started ++ s.queue)
  ∧ ∀ x ∈ s.started ++ s.queue, x < s.nextId

theorem sorted_append_singleton {l : List Nat} {a : Nat}
    (h : List.Sorted (· < ·) l) (hb : ∀ x ∈ l, x < a) :
    List.Sorted (· < ·) (l ++ [a]) := by
  rw [List.Sorted, List.pairwise_append]
  refine ⟨h, by simp, ?_⟩
  intro x hx y hy
  simp at hy
  subst hy
  exact hb x hx

theorem limiterStep_inv (n : Nat) (s : LimiterState) (e : LimiterEvent)
    (h : LimiterInv n s) : LimiterInv n (limiterStep n s e) := by
  obtain ⟨h1, h2, h3, h4⟩ := h
  cases e with
  | submit =>
    by_cases hlt : s.active < n
    · have hq : s.queue = [] := by
        rcases h2 with hq | ha
        · exact hq
        · omega
      have hstep : limiterStep n s .submit =
          { active := s.active + 1, queue := s.queue,
            started := s.started ++ [s.nextId], nextId := s.nextId + 1 } := by
        simp [limiterStep, hlt]
      rw [hstep]
      refine ⟨show s.active + 1 ≤ n by omega, Or.inl hq, ?_, ?_⟩
      · show List.Sorted (· < ·) ((s.started ++ [s.nextId]) ++ s.queue)
        rw [hq, List.append_nil]
        rw [hq, List.append_nil] at h3
        exact sorted_append_singleton h3 (fun x hx => h4 x (by simp [hq, hx]))
      · intro x hx
        show x < s.nextId + 1
        rw [hq, List.append_nil] at hx
        rcases List.mem_append.mp hx with hx | hx
        · have := h4 x (by simp [hx])
          omega
        · simp at hx
          omega
    · have hstep : limiterStep n s .submit =
          { active := s.active, queue := s.queue ++ [s.nextId],
            started := s.started, nextId := s.nextId + 1 } := by
        simp [limiterStep, hlt]
      rw [hstep]
      refine ⟨h1, Or.inr (show s.active = n by omega), ?_, ?_⟩
      · show List.Sorted (· < ·) (s.started ++ (s.queue ++ [s.nextId]))
        rw [← List.append_assoc]
        exact sorted_append_singleton h3 h4
      · intro x hx
        show x < s.nextId + 1
        rw [← List.append_assoc] at hx
        rcases List.mem_append.mp hx with hx | hx
        · have := h4 x hx
          omega
        · simp at hx
          omega
  | finish =>
    by_cases hz : s.active = 0
    · have hstep : limiterStep n s .finish = s := by
        simp [limiterStep, hz]
      rw [hstep]
      exact ⟨h1, h2, h3, h4⟩
    · cases hq : s.queue with
      | nil =>
        have hstep : limiterStep n s .finish =
            { active := s.active - 1, queue := [],
              started := s.started, nextId := s.nextId } := by
          simp [limiterStep, hz, hq]
        rw [hstep]
        refine ⟨show s.active - 1 ≤ n by omega, Or.inl rfl, ?_, ?_⟩
        · show List.Sorted (· < ·) (s.started ++ [])
          rw [hq] at h3
          exact h3
        · intro x hx
          show x < s.nextId
          rw [hq] at h4
          exact h4 x hx
      | cons q rest =>
        have ha : s.active = n := by
          rcases h2 with h2 | h2
          · simp [hq] at h2
          · exact h2
        have hstep : limiterStep n s .finish =
            { active := s.active, queue := rest,
              started := s.started ++ [q], nextId := s.nextId } := by
          simp [limiterStep, hz, hq]
        rw [hstep]
        have hsame : s.started ++ [q] ++ rest = s.started ++ s.queue := by
          rw [hq]
          simp
        refine ⟨h1, Or.inr ha, ?_, ?_⟩
        · show List.Sorted (· < ·) (s.started ++ [q] ++ rest)
          rw [hsame]
          exact h3
        · intro x hx
          show x < s.nextId
          rw [hsame] at hx
          exact h4 x hx

theorem limiterRun_inv (n : Nat) (evs : List LimiterEvent) :
    LimiterInv n (limiterRun n evs) := by
  have aux : ∀ (l : List LimiterEvent) (s : LimiterState), LimiterInv n s →
      LimiterInv n (l.foldl (limiterStep n) s) := by
    intro l
    induction l with
    | nil => intro s hs; simpa using hs
    | cons e rest ih =>
      intro s hs
      simpa [List.foldl] using ih (limiterStep n s e) (limiterStep_inv n s e hs)
  refine aux evs limiterInit ⟨Nat.zero_le n, Or.inl rfl, by simp [limiterInit], ?_⟩
  intro x hx
  simp [limiterInit] at hx

/-- Claim C5: for every sequence of submissions and completions, at most
N tasks (N = CONCURRENCY_LIMIT, default 5) are active inside the limiter
wrapping convertFile at once, and tasks begin execution in FIFO arrival
order (the started identifiers are strictly increasing). -/
theorem limiter_bound_and_fifo (n : Nat) (evs : List LimiterEvent) :
    (limiterRun n evs).active ≤ n
    ∧ List.Sorted (· < ·) (limiterRun n evs).started
    ∧ CONCURRENCY_LIMIT_default = 5 := by
  obtain ⟨h1, _, h3, _⟩ := limiterRun_inv n evs
  refine ⟨h1, ?_, rfl⟩
  exact h3.sublist (List.sublist_append_left _ _)

/-! ## Filename sanitization: src/src/common/filename.ts

`sanitizeFilename` keeps only the basename, replaces control characters
(char code at most 31) and the problematic filesystem and header
characters with an underscore, trims whitespace, caps the length, and
falls back to `file` when empty.  `buildContentDispositionAttachment`
strips a leading dot from the extension, takes the basename of the
original name without its extension (or without `.<cleanExt>` when the
original has no extension, mirroring `extname(originalName) ||
.cleanExt`), sanitizes that base with a 100-character cap, appends the
clean extension, and emits both the quoted plain form and the RFC5987
percent-encoded extended form.

`jsBasename`, `jsBasenameSuffix` and `jsExtname` embed the posix
behavior of the `path` module used by filename.ts; `encodeURIComponent`
embeds the JS global of the same name (percent-encoding of the UTF-8
bytes of every character outside the unreserved set).  The single-quote
character is written `Char.ofNat 39` throughout.
-/

def squote : String := String.singleton (Char.ofNat 39)

/-- `path.basename(p)` on posix: drop trailing separators, then take the
part after the last separator. -/
def jsBasename (p : String) : String :=
  let rev := p.toList.reverse.dropWhile (fun c => c = '/')
  String.mk (rev.takeWhile (fun c => c ≠ '/')).reverse

/-- `path.basename(p, ext)` on posix: additionally strip `ext` when it is
a suffix of the basename but not the whole basename.  Suffix test and
removal are spelled over character lists so the kernel can evaluate them. -/
def jsBasenameSuffix (p ext : String) : String :=
  let b := jsBasename p
  let bl := b.toList
  let el := ext.toList
  if ext = "" then b
  else if b = ext then b
  else if el.length ≤ bl.length ∧ bl.drop (bl.length - el.length) = el then
    String.mk (bl.take (bl.length - el.length))
  else b

/-- `path.extname(p)` on posix: the substring from the last dot of the
basename, empty when there is no dot, when the dot is the first character
of the basename, or when the basename is exactly `..`. -/
def jsExtname (p : String) : String :=
  let b := jsBasename p
  if b = ".." then ""
  else
    let rev := b.toList.reverse
    let afterDot := rev.takeWhile (fun c => c ≠ '.')
    if afterDot.length = rev.length then ""
    else if afterDot.length + 1 = rev.length then ""
    else "." ++ String.mk afterDot.reverse

/-- The problematic filesystem and header characters replaced by
sanitizeFilename (filename.ts line 19). -/
def unsafeChars : List Char := ['"', '\\', '/', '<', '>', '|', ':', '*', '?']

/-- One character of the sanitize loop (filename.ts lines 10-26). -/
def sanitizeChar (ch : Char) : Char :=
  if ch.toNat ≤ 31 then '_'
  else if unsafeChars.contains ch then '_'
  else ch

/-- The JS `String.prototype.trim` whitespace set (the common members). -/
def isJsSpace (c : Char) : Bool :=
  c = ' ' || c = '\t' || c = '\n' || c = '\r'
    || c = Char.ofNat 11 || c = Char.ofNat 12 || c = Char.ofNat 160 || c = Char.ofNat 65279

def jsTrim (l : List Char) : List Char :=
  ((l.dropWhile isJsSpace).reverse.dropWhile isJsSpace).reverse

/-- Shallow embedding of `sanitizeFilename` (src/src/common/filename.ts). -/
def sanitizeFilename (name : String) (maxLength : Nat) : String :=
  if name = "" then "file"
  else
    let out := (jsBasename name).toList.map sanitizeChar
    let t := jsTrim out
    let t2 := if maxLength < t.length then t.take maxLength else t
    if t2 = [] then "file" else String.mk t2

/-- Characters `encodeURIComponent` leaves unescaped besides the
alphanumerics. -/
def uriUnreservedExtra : List Char := ['-', '_', '.', '!', '~', '*', Char.ofNat 39, '(', ')']

def isUriUnreserved (c : Char) : Bool :=
  (65 ≤ c.toNat && c.toNat ≤ 90) || (97 ≤ c.toNat && c.toNat ≤ 122)
    || (48 ≤ c.toNat && c.toNat ≤ 57) || uriUnreservedExtra.contains c

def hexUpper (n : Nat) : Char :=
  if n < 10 then Char.ofNat (48 + n) else Char.ofNat (55 + n)

def percentEncodeByte (b : UInt8) : List Char :=
  ['%', hexUpper (b.toNat / 16), hexUpper (b.toNat % 16)]

/-- UTF-8 encoding of one unicode scalar value. -/
def utf8BytesOf (c : Char) : List UInt8 :=
  let n := c.toNat
  if n < 128 then [UInt8.ofNat n]
  else if n < 2048 then
    [UInt8.ofNat (192 + n / 64), UInt8.ofNat (128 + n % 64)]
  else if n < 65536 then
    [UInt8.ofNat (224 + n / 4096), UInt8.ofNat (128 + (n / 64) % 64), UInt8.ofNat (128 + n % 64)]
  else
    [UInt8.ofNat (240 + n / 262144), UInt8.ofNat (128 + (n / 4096) % 64),
     UInt8.ofNat (128 + (n / 64) % 64), UInt8.ofNat (128 + n % 64)]

/-- Shallow embedding of the JS `encodeURIComponent` global used for the
`filename*` form (filename.ts line 48). -/
def encodeURIComponent (s : String) : String :=
  String.mk (s.toList.foldr
    (fun c acc =>
      (if isUriUnreserved c then [c]
       else (utf8BytesOf c).foldr (fun b a => percentEncodeByte b ++ a) []) ++ acc) [])

/-- `const cleanExt = ext.startsWith(.) ? ext.slice(1) : ext`. -/
def cleanExtOf (ext : String) : String :=
  match ext.toList with
  | [] => ext
  | c :: rest => if c = '.' then String.mk rest else ext

/-- `extname(originalName) || .cleanExt` (filename.ts line 43). -/
def extForBasename (originalName ext : String) : String :=
  let e := jsExtname originalName
  if e = "" then "." ++ cleanExtOf ext else e

/-- `basename(originalName, extname(originalName) || .cleanExt)`. -/
def attachmentBase (originalName ext : String) : String :=
  jsBasenameSuffix originalName (extForBasename originalName ext)

/-- `cleanExt ? safeBase.cleanExt : safeBase` (filename.ts line 45). -/
def attachmentFilename (originalName ext : String) : String :=
  if cleanExtOf ext = "" then sanitizeFilename (attachmentBase originalName ext) 100
  else sanitizeFilename (attachmentBase originalName ext) 100 ++ "." ++ cleanExtOf ext

/-- Shallow embedding of `buildContentDispositionAttachment`
(src/src/common/filename.ts). -/
def buildContentDispositionAttachment (originalName ext : String) : String :=
  let filename := attachmentFilename originalName ext
  "attachment; filename=" ++ "\"" ++ filename ++ "\"" ++ "; filename*=UTF-8"
    ++ squote ++ squote ++ encodeURIComponent filename

theorem mem_of_dropWhile {A : Type} (p : A → Bool) (l : List A) (a : A)
    (h : a ∈ l.dropWhile p) : a ∈ l := by
  induction l with
  | nil => simp at h
  | cons x xs ih =>
    rw [List.dropWhile_cons] at h
    by_cases hp : p x
    · rw [if_pos hp] at h
      exact List.mem_cons_of_mem x (ih h)
    · rw [if_neg hp] at h
      exact h

theorem mem_of_jsTrim {l : List Char} {a : Char} (h : a ∈ jsTrim l) : a ∈ l := by
  unfold jsTrim at h
  rw [List.mem_reverse] at h
  have h2 := mem_of_dropWhile isJsSpace ((l.dropWhile isJsSpace).reverse) a h
  rw [List.mem_reverse] at h2
  exact mem_of_dropWhile isJsSpace l a h2

theorem sanitizeChar_ok (d : Char) :
    31 < (sanitizeChar d).toNat ∧ unsafeChars.contains (sanitizeChar d) = false := by
  unfold sanitizeChar
  by_cases h1 : d.toNat ≤ 31
  · rw [if_pos h1]
    decide
  · rw [if_neg h1]
    by_cases h2 : unsafeChars.contains d = true
    · rw [if_pos h2]
      decide
    · rw [if_neg h2]
      exact ⟨by omega, Bool.eq_false_iff.mpr h2⟩

theorem sanitizeFilename_chars (name : String) (maxLength : Nat) :
    ∀ c ∈ (sanitizeFilename name maxLength).toList,
      31 < c.toNat ∧ unsafeChars.contains c = false := by
  unfold sanitizeFilename
  by_cases h0 : name = ""
  · rw [if_pos h0]
    decide
  · rw [if_neg h0]
    by_cases hE : (if maxLength < (jsTrim ((jsBasename name).toList.map sanitizeChar)).length
        then (jsTrim ((jsBasename name).toList.map sanitizeChar)).take maxLength
        else jsTrim ((jsBasename name).toList.map sanitizeChar)) = []
    · rw [if_pos hE]
      decide
    · rw [if_neg hE]
      intro c hc
      have hct : c ∈ jsTrim ((jsBasename name).toList.map sanitizeChar) := by
        by_cases hm : maxLength < (jsTrim ((jsBasename name).toList.map sanitizeChar)).length
        · rw [if_pos hm] at hc
          exact (List.take_sublist _ _).subset hc
        · rw [if_neg hm] at hc
          exact hc
      have hmap : c ∈ (jsBasename name).toList.map sanitizeChar := mem_of_jsTrim hct
      obtain ⟨d, _, hd⟩ := List.mem_map.mp hmap
      rw [← hd]
      exact sanitizeChar_ok d

theorem sanitizeFilename_length (name : String) (maxLength : Nat) (h4 : 4 ≤ maxLength) :
    (sanitizeFilename name maxLength).length ≤ maxLength := by
  unfold sanitizeFilename
  by_cases h0 : name = ""
  · rw [if_pos h0]
    simpa using h4
  · rw [if_neg h0]
    by_cases hE : (if maxLength < (jsTrim ((jsBasename name).toList.map sanitizeChar)).length
        then (jsTrim ((jsBasename name).toList.map sanitizeChar)).take maxLength
        else jsTrim ((jsBasename name).toList.map sanitizeChar)) = []
    · rw [if_pos hE]
      simpa using h4
    · rw [if_neg hE]
      by_cases hm : maxLength < (jsTrim ((jsBasename name).toList.map sanitizeChar)).length
      · rw [if_pos hm]
        show (((jsTrim ((jsBasename name).toList.map sanitizeChar)).take maxLength)).length ≤ maxLength
        simp
      · rw [if_neg hm]
        show ((jsTrim ((jsBasename name).toList.map sanitizeChar))).length ≤ maxLength
        omega

/-- Counterexample for C9: the extension is appended to the sanitized
base verbatim, so an extension containing a filesystem-unsafe character
survives into the plain `filename` of the header.  Here `ext = p<f`
yields the plain filename `report.p<f`, which still contains `<`, a
member of the unsafe set the claim says is replaced. -/
theorem buildContentDisposition_unsafe_ext_cex :
    buildContentDispositionAttachment "report.docx" "p<f"
      = "attachment; filename=" ++ "\"" ++ "report.p<f" ++ "\"" ++ "; filename*=UTF-8"
        ++ squote ++ squote ++ "report.p%3Cf"
    ∧ '<' ∈ "report.p<f".toList
    ∧ unsafeChars.contains '<' = true := by
  refine ⟨by decide, by decide, by decide⟩

/-- Claim C9 (amended): for every original filename and nonempty cleaned
target extension, the header has the form `attachment;
filename="<base>.<ext>"; filename*=UTF-8..<encoded>` where the BASE has
control characters and filesystem-unsafe characters replaced and is
capped at 100 characters, the extension is appended as given (leading
dot stripped, not sanitized), and the extended form is the
percent-encoding of the same filename. -/
theorem buildContentDisposition_structure (originalName ext : String)
    (h : cleanExtOf ext ≠ "") :
    buildContentDispositionAttachment originalName ext
      = "attachment; filename=" ++ "\""
        ++ (sanitizeFilename (attachmentBase originalName ext) 100 ++ "." ++ cleanExtOf ext)
        ++ "\"" ++ "; filename*=UTF-8" ++ squote ++ squote
        ++ encodeURIComponent
          (sanitizeFilename (attachmentBase originalName ext) 100 ++ "." ++ cleanExtOf ext)
    ∧ (sanitizeFilename (attachmentBase originalName ext) 100).length ≤ 100
    ∧ ∀ c ∈ (sanitizeFilename (attachmentBase originalName ext) 100).toList,
        31 < c.toNat ∧ unsafeChars.contains c = false := by
  refine ⟨?_, sanitizeFilename_length _ _ (by omega), sanitizeFilename_chars _ _⟩
  unfold buildContentDispositionAttachment attachmentFilename
  rw [if_neg h]

/-- Witness for the amended C9 at `report.docx` converted to `pdf`. -/
theorem buildContentDisposition_structure_witness :
    cleanExtOf "pdf" ≠ ""
    ∧ buildContentDispositionAttachment "report.docx" "pdf"
      = "attachment; filename=" ++ "\""
        ++ (sanitizeFilename (attachmentBase "report.docx" "pdf") 100 ++ "." ++ cleanExtOf "pdf")
        ++ "\"" ++ "; filename*=UTF-8" ++ squote ++ squote
        ++ encodeURIComponent
          (sanitizeFilename (attachmentBase "report.docx" "pdf") 100 ++ "." ++ cleanExtOf "pdf") :=
  ⟨by decide, (buildContentDisposition_structure "report.docx" "pdf" (by decide)).1⟩

/-! ## Pipeline orchestrator: src/src/server.ts (fetch handler)

`handleMultipart` and `handleJson` embed the two content-type branches of
the `/process` fetch handler, inlined with the `withTemp` scope helper
(src/unnamed/part_001) and `FileTemp.cleanFileOnTmpFolder`
(src/src/common/class/FileTemp.ts).  The request records carry which
fields were present; the oracles record how the awaited effects settled:

- `stageOk`: input staging succeeded (multipart: `streamWebToFile` of the
  upload; JSON: the `fetch(downloadUrl)` was ok, had a body, and the body
  streamed to disk — all under one `withTimeout`);
- `conv`: how `withTimeout(convertFile(...))` settled (`convertFile` is
  always called with `keepTemp: true` from the server, so a success is
  always an `outputPath` result and the in-memory fallback of the handler
  is unreachable);
- `uploadThrows`: the forward-upload PUT `fetch` itself threw (network
  error or abort on timeout);
- `uploadStatus`: the HTTP status of the PUT response otherwise.

The state tracks the workspace directory (`wsCreated` — a FileTemp
directory was made for the request; `wsExists` — it is still on disk;
`destroys` — how many `rm` calls actually removed an existing directory),
the handler flags `tempSet`/`tempCleaned` backing `cleanTempNow`
(server.ts lines 76-84), and an event trace for ordering properties.
The response begins a deferred stream in the `wantsDownload` case; its
end/error cleanup handlers (server.ts lines 197-198 and 354-355) are the
final `cleanFileOnTmpFolder` of that branch, so the returned state is the
state after the full completion of the request including the deferred
response stream.
-/

inductive Ev where
  | wsCreate
  | stageInput
  | slotAcquire
  | procExit
  | slotRelease
  | dispatchOut
  | wsDestroy
deriving DecidableEq

inductive ConvO where
  | success
  | failure
deriving DecidableEq

structure St where
  trace : List Ev
  wsCreated : Bool
  wsExists : Bool
  destroys : Nat
  tempSet : Bool
  tempCleaned : Bool
deriving DecidableEq

def st0 : St := ⟨[], false, false, 0, false, false⟩

def emit (e : Ev) (s : St) : St := { s with trace := s.trace ++ [e] }

/-- `FileTemp.cleanFileOnTmpFolder`: `rm(tempDir, recursive, force)` —
removes the directory when it exists, is a silent no-op otherwise. -/
def cleanFileOnTmpFolder (s : St) : St :=
  if s.wsExists then
    { s with wsExists := false, destroys := s.destroys + 1,
             trace := s.trace ++ [Ev.wsDestroy] }
  else s

/-- `cleanTempNow` (server.ts lines 79-84): cleans once, guarded by the
`tempForCleanup`/`tempCleaned` flags. -/
def cleanTempNow (s : St) : St :=
  if s.tempSet && !s.tempCleaned then
    let s2 := cleanFileOnTmpFolder s
    { s2 with tempCleaned := true }
  else s

/-- The `finally` block of `withTemp` (src/unnamed/part_001 lines 16-24):
clean the temp directory unless the caller asked to keep it. -/
def withTempFinally (keepTemp : Bool) (s : St) : St :=
  if keepTemp then s else cleanFileOnTmpFolder s

structure PipelineOracles where
  stageOk : Bool
  conv : ConvO
  uploadThrows : Bool
  uploadStatus : Nat
deriving DecidableEq

structure JsonReq where
  hasDownloadUrl : Bool
  hasFrom : Bool
  hasTo : Bool
  uploadUrlParam : Bool
  uploadUrlJson : Bool
  wantsDownload : Bool
deriving DecidableEq

structure MultipartReq where
  hasFile : Bool
  hasFrom : Bool
  hasTo : Bool
  fileStreamOk : Bool
  uploadUrlParam : Bool
  uploadUrlForm : Bool
  wantsDownload : Bool
deriving DecidableEq

/-- Shallow embedding of the JSON branch of the fetch handler
(src/src/server.ts lines 221-378).  Returns the HTTP status sent to the
caller and the final state after the request fully completes. -/
def handleJson (r : JsonReq) (o : PipelineOracles) : Nat × St :=
  -- line 238: missing downloadUrl → 400, no workspace
  if !r.hasDownloadUrl then (400, st0)
  -- line 239: missing from or to → 400, no workspace
  else if !(r.hasFrom && r.hasTo) then (400, st0)
  else
    let keepTemp := r.wantsDownload
    -- line 247: withTemp creates the FileTemp workspace directory
    let s := emit Ev.wsCreate { st0 with wsCreated := true, wsExists := true }
    -- line 248: tempForCleanup = temp
    let s := { s with tempSet := true }
    -- lines 252-263: fetch(downloadUrl) + streamWebToFile under withTimeout
    if !o.stageOk then
      -- fn throws; withTemp finally (keepTemp = wantsDownload); the catch
      -- at line 375 returns 400 WITHOUT any cleanTempNow call
      (400, withTempFinally keepTemp s)
    else
      let s := emit Ev.stageInput s
      let hasUploadUrl := r.uploadUrlParam || r.uploadUrlJson
      -- lines 272-275: output-mode check, after staging, inside withTemp
      if !hasUploadUrl && !keepTemp then
        (400, withTempFinally keepTemp s)
      else
        -- lines 287-289: convertFile enters the admission limiter
        let s := emit Ev.slotAcquire s
        match o.conv with
        | .failure =>
          let s := emit Ev.slotRelease s
          (400, withTempFinally keepTemp s)
        | .success =>
          let s := emit Ev.procExit s
          let s := emit Ev.slotRelease s
          if keepTemp then
            -- type stream: withTemp keeps the dir; response streams from
            -- disk (lines 348-367); rs end/error cleans (lines 354-355)
            let s := withTempFinally keepTemp s
            let s := emit Ev.dispatchOut s
            (200, cleanFileOnTmpFolder s)
          else
            -- lines 313-340: PUT upload inside withTemp
            let s := emit Ev.dispatchOut s
            if o.uploadThrows then
              (400, withTempFinally keepTemp s)
            else
              -- line 371-372: upstream status forwarded to the caller
              (o.uploadStatus, withTempFinally keepTemp s)

/-- Shallow embedding of the multipart branch of the fetch handler
(src/src/server.ts lines 86-220). -/
def handleMultipart (r : MultipartReq) (o : PipelineOracles) : Nat × St :=
  -- line 94: missing file → 400
  if !r.hasFile then (400, st0)
  -- line 95: missing from or to → 400
  else if !(r.hasFrom && r.hasTo) then (400, st0)
  -- lines 100-103: file has no stream → cleanTempNow (no-op) and 400
  else if !r.fileStreamOk then (400, cleanTempNow st0)
  else
    let keepTemp := r.wantsDownload
    let hasUploadUrl := r.uploadUrlParam || r.uploadUrlForm
    -- lines 107-110: output-mode check BEFORE withTemp, no workspace yet
    if !hasUploadUrl && !keepTemp then (400, cleanTempNow st0)
    else
      -- line 112: withTemp creates the FileTemp workspace directory
      let s := emit Ev.wsCreate { st0 with wsCreated := true, wsExists := true }
      -- line 113: tempForCleanup = temp
      let s := { s with tempSet := true }
      -- line 116: streamWebToFile of the uploaded stream
      if !o.stageOk then
        -- fn throws; withTemp finally; catch at line 216 calls cleanTempNow
        (400, cleanTempNow (withTempFinally keepTemp s))
      else
        let s := emit Ev.stageInput s
        -- lines 129-131: convertFile enters the admission limiter
        let s := emit Ev.slotAcquire s
        match o.conv with
        | .failure =>
          let s := emit Ev.slotRelease s
          (400, cleanTempNow (withTempFinally keepTemp s))
        | .success =>
          let s := emit Ev.procExit s
          let s := emit Ev.slotRelease s
          if keepTemp then
            -- type stream (lines 191-211); rs end/error cleans (197-198)
            let s := withTempFinally keepTemp s
            let s := emit Ev.dispatchOut s
            (200, cleanFileOnTmpFolder s)
          else
            -- lines 159-185: PUT upload inside withTemp
            let s := emit Ev.dispatchOut s
            if o.uploadThrows then
              (400, cleanTempNow (withTempFinally keepTemp s))
            else
              -- line 213-215: upstream status forwarded to the caller
              (o.uploadStatus, withTempFinally keepTemp s)

/-- Claim C1 (code bug in the JSON branch): a JSON request with the
download flag set whose staging fetch fails leaves the workspace
directory on disk forever — `withTemp` keeps it because
`keepTemp = wantsDownload`, and the catch at server.ts line 375 returns
400 without calling `cleanTempNow` (unlike the multipart catch at line
216-217).  The final state after the request completes still has the
workspace directory existing and zero effective removals. -/
theorem json_download_failure_leaks_workspace :
    handleJson ⟨true, true, true, false, false, true⟩ ⟨false, .success, false, 200⟩
      = (400, { trace := [Ev.wsCreate], wsCreated := true, wsExists := true,
                destroys := 0, tempSet := true, tempCleaned := false }) := by
  decide

/-- Counterexample for C6: a JSON request with downloadUrl, from and to
present but no resolvable output mode (no uploadUrl anywhere and no
download flag) is rejected only AFTER the workspace was created and the
input staged: the response is 400, yet `wsCreated` is true and the trace
contains the staging event. -/
theorem json_missing_output_mode_creates_workspace_cex :
    (handleJson ⟨true, true, true, false, false, false⟩ ⟨true, .success, false, 200⟩).1 = 400
    ∧ (handleJson ⟨true, true, true, false, false, false⟩
        ⟨true, .success, false, 200⟩).2.wsCreated = true
    ∧ Ev.stageInput ∈ (handleJson ⟨true, true, true, false, false, false⟩
        ⟨true, .success, false, 200⟩).2.trace := by
  decide

/-- Claim C6 (amended): requests missing a format tag or the input mode
fail with a validation error before staging and no workspace is ever
created, and in the multipart branch a missing output mode does too; in
the JSON branch, however, a missing output mode is detected only after
input staging, inside the workspace scope — the request still fails with
a 400, the workspace was created, and it is destroyed exactly once by
the withTemp finally block. -/
theorem validation_before_staging_amended :
    (∀ (r : MultipartReq) (o : PipelineOracles),
      (r.hasFile = false ∨ r.hasFrom = false ∨ r.hasTo = false
        ∨ (r.uploadUrlParam = false ∧ r.uploadUrlForm = false ∧ r.wantsDownload = false)) →
      (handleMultipart r o).1 = 400 ∧ (handleMultipart r o).2.wsCreated = false)
    ∧ (∀ (r : JsonReq) (o : PipelineOracles),
      (r.hasDownloadUrl = false ∨ r.hasFrom = false ∨ r.hasTo = false) →
      (handleJson r o).1 = 400 ∧ (handleJson r o).2.wsCreated = false)
    ∧ (∀ (cv : ConvO) (ut : Bool) (us : Nat),
      (handleJson ⟨true, true, true, false, false, false⟩ ⟨true, cv, ut, us⟩).1 = 400
      ∧ (handleJson ⟨true, true, true, false, false, false⟩ ⟨true, cv, ut, us⟩).2.wsCreated = true
      ∧ (handleJson ⟨true, true, true, false, false, false⟩ ⟨true, cv, ut, us⟩).2.wsExists = false
      ∧ (handleJson ⟨true, true, true, false, false, false⟩ ⟨true, cv, ut, us⟩).2.destroys = 1) := by
  refine ⟨?_, ?_, ?_⟩
  · intro r o h
    obtain ⟨a, b, c, d, e, f, g⟩ := r
    obtain ⟨so, cv, ut, us⟩ := o
    cases a <;> cases b <;> cases c <;> cases d <;> cases e <;> cases f <;> cases g <;>
      cases so <;> cases cv <;> cases ut <;>
      first
      | exact ⟨of_decide_eq_true rfl, of_decide_eq_true rfl⟩
      | exact absurd h (of_decide_eq_true rfl)
  · intro r o h
    obtain ⟨a, b, c, d, e, f⟩ := r
    obtain ⟨so, cv, ut, us⟩ := o
    cases a <;> cases b <;> cases c <;> cases d <;> cases e <;> cases f <;>
      cases so <;> cases cv <;> cases ut <;>
      first
      | exact ⟨of_decide_eq_true rfl, of_decide_eq_true rfl⟩
      | exact absurd h (of_decide_eq_true rfl)
  · intro cv ut us
    exact ⟨rfl, rfl, rfl, rfl⟩

/-- Witness for the amended C6: a multipart request without a file is a
400 with no workspace; a JSON request without downloadUrl creates no
workspace; a JSON request with no output mode destroys its workspace
exactly once. -/
theorem validation_before_staging_amended_witness :
    (handleMultipart ⟨false, true, true, true, false, false, true⟩
      ⟨true, .success, false, 200⟩).1 = 400
    ∧ (handleJson ⟨false, true, true, false, false, true⟩
      ⟨true, .success, false, 200⟩).2.wsCreated = false
    ∧ (handleJson ⟨true, true, true, false, false, false⟩
      ⟨true, .success, false, 200⟩).2.destroys = 1 :=
  ⟨(validation_before_staging_amended.1 ⟨false, true, true, true, false, false, true⟩
      ⟨true, .success, false, 200⟩ (Or.inl rfl)).1,
   (validation_before_staging_amended.2.1 ⟨false, true, true, false, false, true⟩
      ⟨true, .success, false, 200⟩ (Or.inl rfl)).2,
   (validation_before_staging_amended.2.2 .success false 200).2.2.2⟩

/-- Counterexample for C7: a JSON request whose conversion succeeds and
whose forward-upload PUT returns HTTP 500 answers the original caller
with 500 — the upstream status forwarded verbatim (server.ts lines
337, 371-372) — not with a 502 UploadForwardingError. -/
theorem upload_500_forwarded_cex :
    (handleJson ⟨true, true, true, true, false, false⟩ ⟨true, .success, false, 500⟩).1 = 500
    ∧ (handleJson ⟨true, true, true, true, false, false⟩ ⟨true, .success, false, 500⟩).1 ≠ 502
    ∧ (handleJson ⟨true, true, true, true, false, false⟩
        ⟨true, .success, false, 500⟩).2.destroys = 1 := by
  decide

/-- Claim C7 (amended): when the conversion succeeds and the
forward-upload PUT returns a non-success HTTP status, the caller
receives that upstream status forwarded verbatim (not a 502), and the
workspace is still destroyed exactly once by the withTemp finally
block. -/
theorem upload_status_forwarded_amended (uploadUrlParam uploadUrlJson : Bool) (us : Nat)
    (h : uploadUrlParam = true ∨ uploadUrlJson = true) :
    (handleJson ⟨true, true, true, uploadUrlParam, uploadUrlJson, false⟩
        ⟨true, .success, false, us⟩).1 = us
    ∧ (handleJson ⟨true, true, true, uploadUrlParam, uploadUrlJson, false⟩
        ⟨true, .success, false, us⟩).2.destroys = 1
    ∧ (handleJson ⟨true, true, true, uploadUrlParam, uploadUrlJson, false⟩
        ⟨true, .success, false, us⟩).2.wsExists = false := by
  rcases h with h | h
  · subst h
    exact ⟨rfl, rfl, rfl⟩
  · subst h
    cases uploadUrlParam
    · exact ⟨rfl, rfl, rfl⟩
    · exact ⟨rfl, rfl, rfl⟩

/-- Witness for the amended C7 at upstream status 500. -/
theorem upload_status_forwarded_amended_witness :
    (handleJson ⟨true, true, true, true, false, false⟩ ⟨true, .success, false, 500⟩).1 = 500
    ∧ (handleJson ⟨true, true, true, true, false, false⟩
        ⟨true, .success, false, 500⟩).2.wsExists = false :=
  ⟨(upload_status_forwarded_amended true false 500 (Or.inl rfl)).1,
   (upload_status_forwarded_amended true false 500 (Or.inl rfl)).2.2⟩

/-- Counterexample for C8: in a successful pipeline run the workspace is
created strictly BEFORE the admission slot is acquired — the server
creates the FileTemp via withTemp and stages the input first, and only
then does convertFile enter the limiter — contradicting the claim that
the slot is acquired before the workspace is created. -/
theorem slot_acquired_after_workspace_cex :
    ((handleJson ⟨true, true, true, true, false, false⟩
        ⟨true, .success, false, 200⟩).2.trace.indexOf Ev.wsCreate
      < (handleJson ⟨true, true, true, true, false, false⟩
        ⟨true, .success, false, 200⟩).2.trace.indexOf Ev.slotAcquire)
    ∧ ¬((handleJson ⟨true, true, true, true, false, false⟩
        ⟨true, .success, false, 200⟩).2.trace.indexOf Ev.slotAcquire
      < (handleJson ⟨true, true, true, true, false, false⟩
        ⟨true, .success, false, 200⟩).2.trace.indexOf Ev.wsCreate) := by
  decide

set_option maxHeartbeats 4000000 in
/-- Claim C8 (amended): in both branches, whenever the conversion enters
the limiter the workspace creation and the input staging precede the
slot acquisition, and whenever output dispatch happens the subprocess
exit precedes the slot release, which precedes the start of output
dispatch (so slow output transfer never holds a conversion slot). -/
theorem slot_ordering_amended :
    (∀ (r : JsonReq) (o : PipelineOracles),
      (Ev.slotAcquire ∈ (handleJson r o).2.trace →
        (handleJson r o).2.trace.indexOf Ev.wsCreate
            < (handleJson r o).2.trace.indexOf Ev.slotAcquire
        ∧ (handleJson r o).2.trace.indexOf Ev.stageInput
            < (handleJson r o).2.trace.indexOf Ev.slotAcquire)
      ∧ (Ev.dispatchOut ∈ (handleJson r o).2.trace →
        (handleJson r o).2.trace.indexOf Ev.procExit
            < (handleJson r o).2.trace.indexOf Ev.slotRelease
        ∧ (handleJson r o).2.trace.indexOf Ev.slotRelease
            < (handleJson r o).2.trace.indexOf Ev.dispatchOut))
    ∧ (∀ (r : MultipartReq) (o : PipelineOracles),
      (Ev.slotAcquire ∈ (handleMultipart r o).2.trace →
        (handleMultipart r o).2.trace.indexOf Ev.wsCreate
            < (handleMultipart r o).2.trace.indexOf Ev.slotAcquire
        ∧ (handleMultipart r o).2.trace.indexOf Ev.stageInput
            < (handleMultipart r o).2.trace.indexOf Ev.slotAcquire)
      ∧ (Ev.dispatchOut ∈ (handleMultipart r o).2.trace →
        (handleMultipart r o).2.trace.indexOf Ev.procExit
            < (handleMultipart r o).2.trace.indexOf Ev.slotRelease
        ∧ (handleMultipart r o).2.trace.indexOf Ev.slotRelease
            < (handleMultipart r o).2.trace.indexOf Ev.dispatchOut)) := by
  constructor
  · intro r o
    obtain ⟨a, b, c, d, e, f⟩ := r
    obtain ⟨so, cv, ut, us⟩ := o
    cases a <;> cases b <;> cases c <;> cases d <;> cases e <;> cases f <;>
      cases so <;> cases cv <;> cases ut <;>
      refine ⟨fun hA => ?_, fun hD => ?_⟩ <;>
      first
      | exact ⟨of_decide_eq_true rfl, of_decide_eq_true rfl⟩
      | exact absurd hA (of_decide_eq_true rfl)
      | exact absurd hD (of_decide_eq_true rfl)
  · intro r o
    obtain ⟨a, b, c, d, e, f, g⟩ := r
    obtain ⟨so, cv, ut, us⟩ := o
    cases a <;> cases b <;> cases c <;> cases d <;> cases e <;> cases f <;> cases g <;>
      cases so <;> cases cv <;> cases ut <;>
      refine ⟨fun hA => ?_, fun hD => ?_⟩ <;>
      first
      | exact ⟨of_decide_eq_true rfl, of_decide_eq_true rfl⟩
      | exact absurd hA (of_decide_eq_true rfl)
      | exact absurd hD (of_decide_eq_true rfl)

/-- Witness for the amended C8: the orderings hold on the concrete trace
of a successful upload-mode JSON request. -/
theorem slot_ordering_amended_witness :
    (handleJson ⟨true, true, true, true, false, false⟩
        ⟨true, .success, false, 200⟩).2.trace.indexOf Ev.procExit
      < (handleJson ⟨true, true, true, true, false, false⟩
        ⟨true, .success, false, 200⟩).2.trace.indexOf Ev.slotRelease
    ∧ (handleJson ⟨true, true, true, true, false, false⟩
        ⟨true, .success, false, 200⟩).2.trace.indexOf Ev.slotRelease
      < (handleJson ⟨true, true, true, true, false, false⟩
        ⟨true, .success, false, 200⟩).2.trace.indexOf Ev.dispatchOut :=
  (slot_ordering_amended.1 ⟨true, true, true, true, false, false⟩
    ⟨true, .success, false, 200⟩).2 (by decide)
